import Mathlib

/-!
Shallow embedding of the core of `src/tests/fixtures/sample.py`:
a CSV-like loader (`read_data_file`), numeric statistics over a field
(`calculate_statistics`), a categorical filter (`filter_by_category`),
and the CLI entry point (`main`).

Modelling conventions:
* A Python `dict(zip(headers, values))` is embedded as the association
  list produced by `List.zip`, looked up with `dictGet`, which returns
  the value of the last matching pair (matching the way `dict` keeps the
  last binding for a duplicated key).
* Python floats are embedded as exact rationals `ℚ`; the builtin
  `float(·)` coercion is modelled by `floatOfString` on plain decimal
  literals (optional sign, digits, optional single decimal point), which
  fails exactly where `float` raises `ValueError` on such inputs.
* File-system access is embedded by a `ReadResult` value: the list of
  lines of a readable file, or a not-found / other-I/O failure, mirroring
  the `FileNotFoundError` and generic `Exception` handlers in the source.
* Printed output is embedded as a list of `Msg` values; the process exit
  status of `main` as a `Nat`.
-/

set_option allowUnsafeReducibility true

attribute [local semireducible] Rat.add Rat.mul Rat.inv Rat.div

namespace Sample

/-- One parsed data row: a field-name-to-value association list
(the result of `dict(zip(headers, values))` in the source). -/
abbrev Record := List (String × String)

/-- An ordered sequence of Records, as produced by one load. -/
abbrev Dataset := List Record

/-- Python `dict` lookup on the association list built by `zip`:
the LAST pair with the given key wins (later bindings overwrite earlier
ones when a `dict` is built), `none` when the key is absent.
`dictGet r k = some v` models `k in r` and `r[k] == v`;
`dictGet r k` itself models `r.get(k)`. -/
def dictGet : Record → String → Option String
  | [], _ => none
  | p :: ps, k =>
    match dictGet ps k with
    | some v => some v
    | none => if p.1 = k then some p.2 else none

/-- ASCII whitespace as recognised by Python `str.strip()` (space, tab,
newline, carriage return, vertical tab, form feed). -/
def isSpaceChar (c : Char) : Bool :=
  c == ' ' || c == '\t' || c == '\n' || c == '\r' || c == '\x0b' || c == '\x0c'

/-- Drop leading whitespace characters. -/
def dropSpaces : List Char → List Char
  | [] => []
  | c :: cs => if isSpaceChar c then dropSpaces cs else c :: cs

/-- Python `s.strip()`: remove leading and trailing whitespace. -/
def pyStrip (s : String) : String :=
  String.mk ((dropSpaces ((dropSpaces s.toList).reverse)).reverse)

/-- Split a character list on every occurrence of `sep`, keeping empty
pieces, as Python `s.split(sep)` does for a one-character separator
(`"" ↦ [""]`, `"," ↦ ["", ""]`, `"a,b" ↦ ["a", "b"]`). -/
def splitOnChar (sep : Char) : List Char → List (List Char)
  | [] => [[]]
  | c :: cs =>
    let r := splitOnChar sep cs
    if c == sep then [] :: r
    else
      match r with
      | [] => [[c]]
      | t :: ts => (c :: t) :: ts

/-- Python `s.split(',')`. -/
def pySplitComma (s : String) : List String :=
  (splitOnChar ',' s.toList).map String.mk

/-- `[x.strip() for x in line.split(',')]`: naive split on commas,
each token trimmed of surrounding whitespace. -/
def splitCommaTrim (line : String) : List String :=
  (pySplitComma line).map pyStrip

/-- `dict(zip(headers, values))` for one data line: headers from the
first source line, values from the data line, paired positionally and
truncated to the shorter list by `zip`. -/
def mkRecord (headerLine line : String) : Record :=
  (splitCommaTrim headerLine).zip (splitCommaTrim line)

/-- The pure core of `read_data_file`, acting on the list of lines of a
readable file: if there are no lines, no records; otherwise the first
line is the header and every later line whose trimmed form is non-empty
contributes one record, in source order. -/
def parseLines : List String → Dataset
  | [] => []
  | first :: rest =>
    rest.filterMap fun line =>
      if pyStrip line = "" then none else some (mkRecord first line)

/-- Outcome of opening and reading a file path, mirroring the three ways
`open`/`readlines` can go in the source: success with the file's lines,
`FileNotFoundError`, or any other exception. -/
inductive ReadResult
  | ok (lines : List String)
  | fileNotFound
  | ioError (msg : String)
  deriving DecidableEq

/-- One line printed by the program (message text abstracted to a
constructor per `print` site in the source). -/
inductive Msg
  | fileNotFoundMsg (filepath : String)
  | readErrorMsg (msg : String)
  | usage
  | noData
  | loaded (n : Nat)
  | amountStats (minAmt maxAmt avgAmt : ℚ)
  | categoriesFound (cats : List String)
  deriving DecidableEq

/-- `read_data_file(filepath)`: on success parse the lines into records
with an empty diagnostic log; on `FileNotFoundError` or any other
exception print a diagnostic and return the empty dataset.  The `ReadResult`
argument stands for what the file system does for `filepath`. -/
def read_data_file (r : ReadResult) (filepath : String) : Dataset × List Msg :=
  match r with
  | .ok lines => (parseLines lines, [])
  | .fileNotFound => ([], [.fileNotFoundMsg filepath])
  | .ioError e => ([], [.readErrorMsg e])

/-- Value of an all-digit character list read in base 10
(`digitsVal ['1','0'] = 10`). -/
def digitsVal (cs : List Char) : Nat :=
  cs.foldl (fun a c => 10 * a + (c.toNat - 48)) 0

/-- Modelled from the source's use of the Python builtin `float(·)`
(not repository code), restricted to plain decimal literals: surrounding
whitespace stripped, optional sign, then either a non-empty digit string
or two digit strings around a single decimal point where at least one
digit is present.  Returns `none` exactly where `float` raises
`ValueError` on such inputs (e.g. on `"abc"` or `""`). -/
def floatOfString (s : String) : Option ℚ :=
  let cs := (pyStrip s).toList
  let signBody : ℚ × List Char :=
    match cs with
    | '-' :: rest => (-1, rest)
    | '+' :: rest => (1, rest)
    | _ => (1, cs)
  match splitOnChar '.' signBody.2 with
  | [ds] =>
      if ds ≠ [] ∧ ds.all Char.isDigit then
        some (signBody.1 * digitsVal ds)
      else none
  | [ip, fracp] =>
      if (ip ++ fracp) ≠ [] ∧ (ip ++ fracp).all Char.isDigit then
        some (signBody.1 * (digitsVal ip + digitsVal fracp / 10 ^ fracp.length))
      else none
  | _ => none

/-- The list `values` built by `calculate_statistics`: for each record in
order, if the field is present (`numeric_field in record`) and its value
coerces (`float(...)` does not raise), the coerced value; records where
the field is absent or coercion fails contribute nothing. -/
def coercedValues (data : Dataset) (numeric_field : String) : List ℚ :=
  data.filterMap fun record => (dictGet record numeric_field).bind floatOfString

/-- `calculate_statistics(data, numeric_field)`: `(0, 0, 0)` when no
value coerces, otherwise `(min(values), max(values),
sum(values)/len(values))`. -/
def calculate_statistics (data : Dataset) (numeric_field : String) : ℚ × ℚ × ℚ :=
  match coercedValues data numeric_field with
  | [] => (0, 0, 0)
  | v :: vs =>
      (vs.foldl min v, vs.foldl max v, (v :: vs).sum / ((v :: vs).length : ℚ))

/-- `filter_by_category(data, category_field, category_value)`:
the records whose `record.get(category_field)` equals `category_value`,
in original order (`None` from a missing field never equals a string). -/
def filter_by_category (data : Dataset) (category_field category_value : String) :
    Dataset :=
  data.filter fun record => dictGet record category_field = some category_value

/-- Lexicographic `≤` on character lists by code point, as Python
compares strings. -/
def charListLe : List Char → List Char → Bool
  | [], _ => true
  | _ :: _, [] => false
  | a :: as, b :: bs => a.toNat < b.toNat || (a == b && charListLe as bs)

/-- Lexicographic `≤` on strings by code point. -/
def strLe (a b : String) : Bool :=
  charListLe a.toList b.toList

/-- Insert a string into a sorted list, keeping it sorted (ascending). -/
def insertSorted (x : String) : List String → List String
  | [] => [x]
  | y :: ys => if strLe x y then x :: y :: ys else y :: insertSorted x ys

/-- `sorted(·)` on a list of strings (ascending), via insertion sort. -/
def sortStrings (l : List String) : List String :=
  l.foldr insertSorted []

/-- The distinct strings of a list (`set(...)` as a list; the relative
order is irrelevant because the result is sorted afterwards). -/
def dedupStr : List String → List String
  | [] => []
  | x :: xs =>
    let r := dedupStr xs
    if r.contains x then r else x :: r

/-- `sorted(set(record.get('category', '') for record in data))`:
the distinct category values (missing field contributing `""`), sorted. -/
def categoriesOf (data : Dataset) : List String :=
  sortStrings (dedupStr (data.map fun record => (dictGet record "category").getD ""))

/-- `main()`: with fewer than two argv entries print usage and exit 1;
otherwise load the file named by `argv[1]`; if no data was loaded print
`"No data loaded"` and exit 1; otherwise print the record count, then the
amount statistics when the first record has an `"amount"` field, then the
sorted distinct categories when it has a `"category"` field, and exit 0.
`fsys` stands for what the file system returns for each path. -/
def main (argv : List String) (fsys : String → ReadResult) : Nat × List Msg :=
  match argv with
  | _prog :: filepath :: _ =>
    let loaded := read_data_file (fsys filepath) filepath
    let data := loaded.1
    let msgs := loaded.2
    if data = [] then (1, msgs ++ [.noData])
    else
      let m1 := msgs ++ [Msg.loaded data.length]
      let m2 :=
        if (dictGet (data.headD []) "amount").isSome then
          let s := calculate_statistics data "amount"
          m1 ++ [Msg.amountStats s.1 s.2.1 s.2.2]
        else m1
      let m3 :=
        if (dictGet (data.headD []) "category").isSome then
          m2 ++ [Msg.categoriesFound (categoriesOf data)]
        else m2
      (0, m3)
  | _ => (1, [.usage])

/-! ### Helper lemmas -/

lemma foldl_min_le_init (vs : List ℚ) (v : ℚ) : vs.foldl min v ≤ v := by
  induction vs generalizing v with
  | nil => exact le_refl v
  | cons y ys ih => exact le_trans (ih (min v y)) (min_le_left v y)

lemma foldl_min_le_mem (vs : List ℚ) (v : ℚ) : ∀ x ∈ vs, vs.foldl min v ≤ x := by
  induction vs generalizing v with
  | nil => intro x hx; cases hx
  | cons y ys ih =>
    intro x hx
    rcases List.mem_cons.mp hx with rfl | hx
    · exact le_trans (foldl_min_le_init ys (min v x)) (min_le_right v x)
    · exact ih (min v y) x hx

lemma foldl_min_mem (vs : List ℚ) (v : ℚ) : vs.foldl min v ∈ v :: vs := by
  induction vs generalizing v with
  | nil => exact List.mem_singleton.mpr rfl
  | cons y ys ih =>
    show List.foldl min (min v y) ys ∈ v :: y :: ys
    rcases List.mem_cons.mp (ih (min v y)) with h1 | h1
    · rcases min_choice v y with h2 | h2
      · rw [h1, h2]; exact List.mem_cons_self v (y :: ys)
      · rw [h1, h2]; exact List.mem_cons.mpr (Or.inr (List.mem_cons_self y ys))
    · exact List.mem_cons.mpr (Or.inr (List.mem_cons.mpr (Or.inr h1)))

lemma le_foldl_max_init (vs : List ℚ) (v : ℚ) : v ≤ vs.foldl max v := by
  induction vs generalizing v with
  | nil => exact le_refl v
  | cons y ys ih => exact le_trans (le_max_left v y) (ih (max v y))

lemma mem_le_foldl_max (vs : List ℚ) (v : ℚ) : ∀ x ∈ vs, x ≤ vs.foldl max v := by
  induction vs generalizing v with
  | nil => intro x hx; cases hx
  | cons y ys ih =>
    intro x hx
    rcases List.mem_cons.mp hx with rfl | hx
    · exact le_trans (le_max_right v x) (le_foldl_max_init ys (max v x))
    · exact ih (max v y) x hx

lemma foldl_max_mem (vs : List ℚ) (v : ℚ) : vs.foldl max v ∈ v :: vs := by
  induction vs generalizing v with
  | nil => exact List.mem_singleton.mpr rfl
  | cons y ys ih =>
    show List.foldl max (max v y) ys ∈ v :: y :: ys
    rcases List.mem_cons.mp (ih (max v y)) with h1 | h1
    · rcases max_choice v y with h2 | h2
      · rw [h1, h2]; exact List.mem_cons_self v (y :: ys)
      · rw [h1, h2]; exact List.mem_cons.mpr (Or.inr (List.mem_cons_self y ys))
    · exact List.mem_cons.mpr (Or.inr (List.mem_cons.mpr (Or.inr h1)))

lemma calculate_statistics_cons (data : Dataset) (nf : String) (v : ℚ) (vs : List ℚ)
    (h : coercedValues data nf = v :: vs) :
    calculate_statistics data nf
      = (vs.foldl min v, vs.foldl max v, (v :: vs).sum / ((v :: vs).length : ℚ)) := by
  unfold calculate_statistics
  rw [h]

lemma filterMap_ite {α β : Type} (g : α → β) (p : α → Prop) [DecidablePred p]
    (l : List α) :
    (l.filterMap fun x => if p x then none else some (g x))
      = (l.filter fun x => decide (¬ p x)).map g := by
  induction l with
  | nil => rfl
  | cons x xs ih =>
    by_cases hx : p x <;> simp [List.filterMap_cons, List.filter_cons, hx, ih]

lemma parseLines_cons (first : String) (rest : List String) :
    parseLines (first :: rest)
      = (rest.filter fun l => decide (¬ pyStrip l = "")).map (mkRecord first) := by
  show (rest.filterMap fun line =>
      if pyStrip line = "" then none else some (mkRecord first line)) = _
  exact filterMap_ite (mkRecord first) (fun l => pyStrip l = "") rest

lemma zip_length_min {α β : Type} (l1 : List α) (l2 : List β) :
    (l1.zip l2).length = min l1.length l2.length := by
  induction l1 generalizing l2 with
  | nil => simp
  | cons a as ih =>
    cases l2 with
    | nil => simp
    | cons b bs => simp [ih, Nat.succ_min_succ]

lemma map_fst_zip_eq_take {α β : Type} (l1 : List α) (l2 : List β) :
    (l1.zip l2).map Prod.fst = l1.take l2.length := by
  induction l1 generalizing l2 with
  | nil => simp
  | cons a as ih =>
    cases l2 with
    | nil => simp
    | cons b bs => simp [ih]

lemma map_snd_zip_eq_take {α β : Type} (l1 : List α) (l2 : List β) :
    (l1.zip l2).map Prod.snd = l2.take l1.length := by
  induction l1 generalizing l2 with
  | nil => simp
  | cons a as ih =>
    cases l2 with
    | nil => simp
    | cons b bs => simp [ih]

lemma get_pair_mem_zip {α β : Type} (l1 : List α) (l2 : List β) (j : Nat)
    (h1 : j < l1.length) (h2 : j < l2.length) :
    (l1.get ⟨j, h1⟩, l2.get ⟨j, h2⟩) ∈ l1.zip l2 := by
  induction l1 generalizing l2 j with
  | nil => exact absurd h1 (Nat.not_lt_zero j)
  | cons a as ih =>
    cases l2 with
    | nil => exact absurd h2 (Nat.not_lt_zero j)
    | cons b bs =>
      cases j with
      | zero => exact List.mem_cons_self _ _
      | succ j =>
        exact List.mem_cons.mpr
          (Or.inr (ih bs j (Nat.lt_of_succ_lt_succ h1) (Nat.lt_of_succ_lt_succ h2)))

/-! ### Claim theorems -/

/-- C1: `statistics(dataset, field)` considers exactly the records whose
value at the field coerces to a number (`coercedValues`), skipping absent
fields and failed coercions, and returns their minimum, maximum and
arithmetic mean (sum divided by count); in particular on records with
field values `["10", "abc", "20"]` the result is `(10, 20, 15)`. -/
theorem statistics_min_max_mean (data : Dataset) (nf : String)
    (h : coercedValues data nf ≠ []) :
    (calculate_statistics data nf).1 ∈ coercedValues data nf
    ∧ (∀ x ∈ coercedValues data nf, (calculate_statistics data nf).1 ≤ x)
    ∧ (calculate_statistics data nf).2.1 ∈ coercedValues data nf
    ∧ (∀ x ∈ coercedValues data nf, x ≤ (calculate_statistics data nf).2.1)
    ∧ (calculate_statistics data nf).2.2
        = (coercedValues data nf).sum / ((coercedValues data nf).length : ℚ)
    ∧ calculate_statistics [[("amount", "10")], [("amount", "abc")], [("amount", "20")]]
        "amount" = (10, 20, 15) := by
  obtain ⟨v, vs, hvv⟩ := List.exists_cons_of_ne_nil h
  rw [calculate_statistics_cons data nf v vs hvv, hvv]
  refine ⟨foldl_min_mem vs v, ?_, foldl_max_mem vs v, ?_, rfl, by decide⟩
  · intro x hx
    rcases List.mem_cons.mp hx with rfl | hx
    · exact foldl_min_le_init vs x
    · exact foldl_min_le_mem vs v x hx
  · intro x hx
    rcases List.mem_cons.mp hx with rfl | hx
    · exact le_foldl_max_init vs x
    · exact mem_le_foldl_max vs v x hx

/-- Witness for C1 at records with field values `["10", "abc", "20"]`. -/
theorem statistics_min_max_mean_witness :
    (calculate_statistics [[("amount", "10")], [("amount", "abc")], [("amount", "20")]]
        "amount").1
      ∈ coercedValues [[("amount", "10")], [("amount", "abc")], [("amount", "20")]] "amount"
    ∧ calculate_statistics [[("amount", "10")], [("amount", "abc")], [("amount", "20")]]
        "amount" = (10, 20, 15) := by
  have h := statistics_min_max_mean
    [[("amount", "10")], [("amount", "abc")], [("amount", "20")]] "amount" (by decide)
  exact ⟨h.1, h.2.2.2.2.2⟩

/-- C4: when zero values coerce successfully (field never present, never
numeric, or the dataset empty), `statistics` returns exactly `(0, 0, 0)`
(total function, no division by zero). -/
theorem statistics_zero_coercions (data : Dataset) (nf : String)
    (h : coercedValues data nf = []) :
    calculate_statistics data nf = (0, 0, 0) := by
  unfold calculate_statistics
  rw [h]

/-- Witness for C4: an empty dataset and a never-numeric field. -/
theorem statistics_zero_coercions_witness :
    calculate_statistics [] "amount" = (0, 0, 0)
    ∧ calculate_statistics [[("amount", "abc")], [("price", "5")]] "amount" = (0, 0, 0) :=
  ⟨statistics_zero_coercions [] "amount" (by decide),
   statistics_zero_coercions [[("amount", "abc")], [("price", "5")]] "amount" (by decide)⟩

/-- C10: with at least one successfully coerced value, the returned
triple satisfies `min ≤ avg ≤ max` (hence `min ≤ max`), and the min and
max are values actually present among the coerced values. -/
theorem statistics_ordered (data : Dataset) (nf : String)
    (h : coercedValues data nf ≠ []) :
    (calculate_statistics data nf).1 ≤ (calculate_statistics data nf).2.2
    ∧ (calculate_statistics data nf).2.2 ≤ (calculate_statistics data nf).2.1
    ∧ (calculate_statistics data nf).1 ≤ (calculate_statistics data nf).2.1
    ∧ (calculate_statistics data nf).1 ∈ coercedValues data nf
    ∧ (calculate_statistics data nf).2.1 ∈ coercedValues data nf := by
  obtain ⟨v, vs, hvv⟩ := List.exists_cons_of_ne_nil h
  rw [calculate_statistics_cons data nf v vs hvv, hvv]
  have hlen : (0 : ℚ) < ((v :: vs).length : ℚ) := by
    exact_mod_cast Nat.succ_pos vs.length
  have hminall : ∀ x ∈ v :: vs, vs.foldl min v ≤ x := by
    intro x hx
    rcases List.mem_cons.mp hx with rfl | hx
    · exact foldl_min_le_init vs x
    · exact foldl_min_le_mem vs v x hx
  have hmaxall : ∀ x ∈ v :: vs, x ≤ vs.foldl max v := by
    intro x hx
    rcases List.mem_cons.mp hx with rfl | hx
    · exact le_foldl_max_init vs x
    · exact mem_le_foldl_max vs v x hx
  have hsumlo : ((v :: vs).length : ℚ) * vs.foldl min v ≤ (v :: vs).sum := by
    have := List.card_nsmul_le_sum (v :: vs) (vs.foldl min v) hminall
    rwa [nsmul_eq_mul] at this
  have hsumhi : (v :: vs).sum ≤ ((v :: vs).length : ℚ) * vs.foldl max v := by
    have := List.sum_le_card_nsmul (v :: vs) (vs.foldl max v) hmaxall
    rwa [nsmul_eq_mul] at this
  refine ⟨?_, ?_, ?_, foldl_min_mem vs v, foldl_max_mem vs v⟩
  · rw [le_div_iff₀ hlen, mul_comm]
    exact hsumlo
  · rw [div_le_iff₀ hlen, mul_comm]
    exact hsumhi
  · exact le_trans (foldl_min_le_init vs v) (le_foldl_max_init vs v)

/-- Witness for C10 on field values `["3", "7"]`. -/
theorem statistics_ordered_witness :
    (calculate_statistics [[("f", "3")], [("f", "7")]] "f").1
      ≤ (calculate_statistics [[("f", "3")], [("f", "7")]] "f").2.2 :=
  (statistics_ordered [[("f", "3")], [("f", "7")]] "f" (by decide)).1

/-- C2: loading a readable file yields exactly one record per line after
the header whose trimmed form is non-empty, in source row order (the
dataset is the in-order image of the non-blank data lines). -/
theorem load_count_nonblank (lines : List String) (fp : String) :
    ((read_data_file (.ok lines) fp).1).length
      = (lines.drop 1).countP (fun l => decide (¬ pyStrip l = ""))
    ∧ ∀ first rest, lines = first :: rest →
        (read_data_file (.ok lines) fp).1
          = (rest.filter fun l => decide (¬ pyStrip l = "")).map (mkRecord first) := by
  constructor
  · cases lines with
    | nil => rfl
    | cons first rest =>
      show (parseLines (first :: rest)).length = _
      rw [parseLines_cons, List.length_map, List.countP_eq_length_filter]
      rfl
  · rintro first rest rfl
    exact parseLines_cons first rest

/-- Witness for C2: four lines, one blank, two records result. -/
theorem load_count_nonblank_witness :
    ((read_data_file (.ok ["h1,h2", "1,2", "  ", "3,4"]) "d.csv").1).length = 2
    ∧ (read_data_file (.ok ["h1,h2", "1,2", "  ", "3,4"]) "d.csv").1
        = [mkRecord "h1,h2" "1,2", mkRecord "h1,h2" "3,4"] := by
  have h := load_count_nonblank ["h1,h2", "1,2", "  ", "3,4"] "d.csv"
  constructor
  · rw [h.1]; decide
  · rw [h.2 "h1,h2" ["1,2", "  ", "3,4"] rfl]; decide

/-- C3: `filter_by_category` keeps, in original order (sublist), exactly
the records whose value at the field is string-equal to the target; a
record missing the field never matches (even a target of `""`), and a
target matching no record yields the empty dataset. -/
theorem filter_by_category_exact (data : Dataset) (cf cv : String) :
    (filter_by_category data cf cv).Sublist data
    ∧ (∀ r, r ∈ filter_by_category data cf cv ↔ r ∈ data ∧ dictGet r cf = some cv)
    ∧ (∀ r ∈ data, dictGet r cf = none → r ∉ filter_by_category data cf cv)
    ∧ ((∀ r ∈ data, ¬ dictGet r cf = some cv) → filter_by_category data cf cv = []) := by
  refine ⟨List.filter_sublist data, ?_, ?_, ?_⟩
  · intro r
    rw [filter_by_category, List.mem_filter]
    simp
  · intro r _ hnone hmem
    rw [filter_by_category, List.mem_filter] at hmem
    rw [hnone] at hmem
    simp at hmem
  · intro hnomatch
    rw [filter_by_category]
    rw [List.filter_eq_nil_iff]
    intro r hr
    simpa using hnomatch r hr

/-- Witness for C3 on `[{cat: a}, {cat: b}]` filtered to `cat = a`. -/
theorem filter_by_category_exact_witness :
    [("cat", "a")] ∈ filter_by_category [[("cat", "a")], [("cat", "b")]] "cat" "a"
    ∧ [("cat", "b")] ∉ filter_by_category [[("cat", "a")], [("cat", "b")]] "cat" "a" := by
  have h := filter_by_category_exact [[("cat", "a")], [("cat", "b")]] "cat" "a"
  constructor
  · exact (h.2.1 [("cat", "a")]).mpr (by decide)
  · intro hmem
    exact absurd ((h.2.1 [("cat", "b")]).mp hmem).2 (by decide)

/-- C9: `filter_by_category` is idempotent: filtering its own result
again with the same field and value changes nothing. -/
theorem filter_by_category_idem (data : Dataset) (cf cv : String) :
    filter_by_category (filter_by_category data cf cv) cf cv
      = filter_by_category data cf cv := by
  unfold filter_by_category
  rw [List.filter_filter]
  simp

/-- C5: a path that does not resolve (or any other I/O failure) never
propagates: `read_data_file` prints a diagnostic and returns the empty
dataset; an empty (zero-line) readable file also returns the empty
dataset, and a successful read prints no diagnostic at all. -/
theorem load_failures_yield_empty (fp e : String) (lines : List String) :
    read_data_file .fileNotFound fp = ([], [.fileNotFoundMsg fp])
    ∧ read_data_file (.ioError e) fp = ([], [.readErrorMsg e])
    ∧ read_data_file (.ok []) fp = ([], [])
    ∧ (read_data_file (.ok lines) fp).2 = [] :=
  ⟨rfl, rfl, rfl, rfl⟩

/-- C6: a record pairs trimmed header tokens with trimmed row values
positionally, truncated to the shorter side: its key sequence is the
header prefix of the row's length, its value sequence the row prefix of
the header's length, the j-th header token is paired with the j-th row
value, and a non-blank line contributes exactly this record. -/
theorem record_positional_truncation (first line : String) :
    (mkRecord first line).length
      = min (splitCommaTrim first).length (splitCommaTrim line).length
    ∧ (mkRecord first line).map Prod.fst
        = (splitCommaTrim first).take (splitCommaTrim line).length
    ∧ (mkRecord first line).map Prod.snd
        = (splitCommaTrim line).take (splitCommaTrim first).length
    ∧ (∀ j (h1 : j < (splitCommaTrim first).length)
          (h2 : j < (splitCommaTrim line).length),
        ((splitCommaTrim first).get ⟨j, h1⟩, (splitCommaTrim line).get ⟨j, h2⟩)
          ∈ mkRecord first line)
    ∧ (¬ pyStrip line = "" → parseLines [first, line] = [mkRecord first line]) := by
  refine ⟨zip_length_min _ _, map_fst_zip_eq_take _ _, map_snd_zip_eq_take _ _,
    ?_, ?_⟩
  · intro j h1 h2
    exact get_pair_mem_zip (splitCommaTrim first) (splitCommaTrim line) j h1 h2
  · intro hline
    simp [parseLines, hline]

/-- Witness for C6: three header tokens, two row values. -/
theorem record_positional_truncation_witness :
    mkRecord "a,b,c" "1,2" = [("a", "1"), ("b", "2")]
    ∧ parseLines ["a,b,c", "1,2"] = [mkRecord "a,b,c" "1,2"] := by
  have h := record_positional_truncation "a,b,c" "1,2"
  exact ⟨by decide, h.2.2.2.2 (by decide)⟩

/-- The header of a loaded file: the trimmed comma-split tokens of its
first line. -/
def headerOf (lines : List String) : List String :=
  splitCommaTrim (lines.headD "")

/-- C8: every key of every record produced by a load is one of the
header tokens derived from the file's first line. -/
theorem record_keys_in_header (lines : List String) (r : Record)
    (hr : r ∈ parseLines lines) :
    ∀ k v, (k, v) ∈ r → k ∈ headerOf lines := by
  intro k v hkv
  cases lines with
  | nil => simp [parseLines] at hr
  | cons first rest =>
    rw [parseLines_cons] at hr
    obtain ⟨l, _, rfl⟩ := List.mem_map.mp hr
    exact (List.of_mem_zip hkv).1

/-- Witness for C8 on a two-column file. -/
theorem record_keys_in_header_witness :
    "a" ∈ headerOf ["a,b", "1,2"] :=
  record_keys_in_header ["a,b", "1,2"] (mkRecord "a,b" "1,2") (by decide) "a" "1"
    (by decide)

/-- C7 counterexample: a perfectly readable file (empty, or header-only)
still makes `main` exit non-zero without printing a record count,
because the empty-dataset check cannot distinguish a read failure from a
file with no data rows; so non-zero exit is NOT limited to file-access
problems and missing arguments. -/
theorem main_nonzero_exit_on_readable_empty_file :
    (main ["sample.py", "data.csv"] fun _ => .ok []).1 = 1
    ∧ Msg.loaded 0 ∉ (main ["sample.py", "data.csv"] fun _ => .ok []).2
    ∧ (fun _ => ReadResult.ok ([] : List String)) "data.csv" = .ok []
    ∧ (main ["hdr.csv", "hdr.csv"] fun _ => .ok ["amount,category"]).1 = 1 :=
  ⟨by decide, by decide, rfl, by decide⟩

/-- C7 (amended): `main` exits non-zero exactly when the path argument
is missing or the loaded dataset is empty (which covers unreadable and
not-found files, but also readable empty or header-only files); the
record count is printed exactly when at least one record was loaded. -/
theorem main_exit_iff_no_data (prog fp : String) (rest : List String)
    (fsys : String → ReadResult) :
    ((main (prog :: fp :: rest) fsys).1
        = if (read_data_file (fsys fp) fp).1 = [] then 1 else 0)
    ∧ ((read_data_file (fsys fp) fp).1 ≠ [] →
        Msg.loaded (read_data_file (fsys fp) fp).1.length
          ∈ (main (prog :: fp :: rest) fsys).2)
    ∧ main [prog] fsys = (1, [.usage])
    ∧ main [] fsys = (1, [.usage]) := by
  refine ⟨?_, ?_, rfl, rfl⟩
  · by_cases hd : (read_data_file (fsys fp) fp).1 = []
    · simp [main, hd]
    · simp [main, hd]
  · intro hd
    simp only [main]
    rw [if_neg hd]
    split
    · split <;> simp
    · split <;> simp

/-- Witness for C7 (amended) on a one-record readable file. -/
theorem main_exit_iff_no_data_witness :
    (main ["sample.py", "d.csv"] fun _ => .ok ["a,b", "1,2"]).1 = 0
    ∧ Msg.loaded 1 ∈ (main ["sample.py", "d.csv"] fun _ => .ok ["a,b", "1,2"]).2 := by
  have h := main_exit_iff_no_data "sample.py" "d.csv" [] fun _ => .ok ["a,b", "1,2"]
  constructor
  · rw [h.1]
    decide
  · have h2 := h.2.1 (by decide)
    have hl : (read_data_file (ReadResult.ok ["a,b", "1,2"]) "d.csv").1.length = 1 := by
      decide
    rw [hl] at h2
    exact h2

end Sample
